import Mathlib

set_option autoImplicit false

namespace MovieReviews

/-! Shallow embedding of the penalty ledger and token authority of the
MovieReviews backend.  Time is modelled as natural-number seconds since the
epoch; `datetime.utcnow()` becomes an explicit `now : Nat` parameter and
`timedelta(days=n)` becomes `n * secondsPerDay`. -/

def secondsPerDay : Nat := 86400

/-- A timestamp string at rest.  `datetime.fromisoformat` either parses the
string to a point in time (`parsed t`) or raises on a malformed string
(`malformed s`); the embedding records which of the two happens. -/
inductive StoredTime where
  | parsed (t : Nat)
  | malformed (s : String)
  deriving DecidableEq, Repr

/-- The outcome of `datetime.fromisoformat` on a stored string: `some` for a
parseable timestamp, `none` where the library call would raise. -/
def parseTime : StoredTime → Option Nat
  | .parsed t => some t
  | .malformed _ => none

/-- Embeds the stored penalty record of `backend/penalties/schemas.py`
(class `Penalty`) together with the extra keys `resolved_by` / `resolved_at`
that `resolve_penalty` writes into the raw dictionary. -/
structure Penalty where
  user_id : String
  type : String
  severity : String
  reason : String
  notes : Option String := none
  penalty_id : String
  issued_by : String
  issued_at : Nat
  expires_at : Option StoredTime := none
  status : String := "active"
  resolved_by : Option String := none
  resolved_at : Option Nat := none
  deriving DecidableEq, Repr

/-- Embedding of `Penalty.has_expired` from `schemas.py`: `False` when `expires_at` is
absent, `False` when `fromisoformat` raises (the `except` branch), otherwise
`utcnow() > fromisoformat(expires_at)`. -/
def Penalty.has_expired (p : Penalty) (now : Nat) : Bool :=
  match p.expires_at with
  | none => false
  | some ts =>
    match parseTime ts with
    | some t => decide (t < now)
    | none => false

/-- Embedding of `Penalty.time_remaining` from `schemas.py`: human-readable time left. -/
def Penalty.time_remaining (p : Penalty) (now : Nat) : Option String :=
  match p.expires_at with
  | none => none
  | some ts =>
    match parseTime ts with
    | none => none
    | some t =>
      if t ≤ now then some "Expired"
      else
        let remaining := t - now
        let d := remaining / secondsPerDay
        let s := remaining % secondsPerDay
        let h := s / 3600
        let m := s % 3600 / 60
        if 0 < d then some (toString d ++ "d " ++ toString h ++ "h remaining")
        else if 0 < h then some (toString h ++ "h " ++ toString m ++ "m remaining")
        else some (toString m ++ "m remaining")

/-- The severity-dispatch part of `calculate_expiry` in `schemas.py`
(the code after the override check): warnings never expire, then the
`match severity` with a catch-all default of seven days. -/
def calculate_expiry_default (p_type severity : String) (now : Nat) : Option Nat :=
  if p_type == "warning" then none
  else if severity == "minor" then some (now + 3 * secondsPerDay)
  else if severity == "moderate" then some (now + 7 * secondsPerDay)
  else if severity == "severe" then
    if p_type == "suspension" then some (now + 30 * secondsPerDay)
    else some (now + 14 * secondsPerDay)
  else some (now + 7 * secondsPerDay)

/-- Embedding of `calculate_expiry` from `schemas.py`.  The Python guard
`if duration_days and duration_days > 0` is truthy exactly when the value is
present and strictly positive. -/
def calculate_expiry (p_type severity : String) (duration_days : Option Int)
    (now : Nat) : Option Nat :=
  match duration_days with
  | some d =>
    if 0 < d then some (now + d.toNat * secondsPerDay)
    else calculate_expiry_default p_type severity now
  | none => calculate_expiry_default p_type severity now

/-- A user record as the penalties module sees it: the identifier and the
list of currently-active penalty identifiers (`user["penalties"]`). -/
structure UserRecord where
  user_id : String
  penalties : List String
  deriving DecidableEq, Repr

/-- The combined persistent state the penalties module mutates:
`penalties.json` and the active-users collection. -/
structure LedgerState where
  penalties : List Penalty
  users : List UserRecord
  deriving DecidableEq, Repr

/-- The linking loop of `add_penalty` in `penalties/utils.py`: append the
penalty id to the first user whose `user_id` matches (then `break`). -/
def linkToUsers (uid pid : String) : List UserRecord → List UserRecord
  | [] => []
  | u :: rest =>
    if u.user_id == uid then { u with penalties := u.penalties ++ [pid] } :: rest
    else u :: linkToUsers uid pid rest

/-- Embedding of `add_penalty` from `penalties/utils.py`: append the record to the ledger
and link its id into the matching user. -/
def add_penalty (p : Penalty) (st : LedgerState) : LedgerState :=
  { penalties := st.penalties ++ [p],
    users := linkToUsers p.user_id p.penalty_id st.users }

/-- The loop body of `_unlink_penalty_from_user` in `penalties/utils.py`:
remove the first occurrence of the penalty id from the first user whose
`user_id` matches (Python `list.remove` behind an `in` guard). -/
def unlinkFromUsers (uid pid : String) : List UserRecord → List UserRecord
  | [] => []
  | u :: rest =>
    if u.user_id == uid then { u with penalties := u.penalties.erase pid } :: rest
    else u :: unlinkFromUsers uid pid rest

/-- Embedding of `_unlink_penalty_from_user` from `penalties/utils.py` (leading
underscore dropped for Lean). -/
def unlink_penalty_from_user (uid pid : String) (st : LedgerState) : LedgerState :=
  { st with users := unlinkFromUsers uid pid st.users }

/-- The inner update loop of `get_penalties_for_user`: set every stored
record with the given penalty id to status expired. -/
def markExpired (pid : String) (ps : List Penalty) : List Penalty :=
  ps.map fun q => if q.penalty_id == pid then { q with status := "expired" } else q

/-- The loop condition of `get_penalties_for_user`:
`p.status == "active" and p.has_expired()`. -/
def lapsed (now : Nat) (p : Penalty) : Bool :=
  p.status == "active" && p.has_expired now

/-- One iteration of the expiry loop in `get_penalties_for_user`: mark the
stored records expired, then unlink the id from the user. -/
def expireOne (st : LedgerState) (p : Penalty) : LedgerState :=
  unlink_penalty_from_user p.user_id p.penalty_id
    { st with penalties := markExpired p.penalty_id st.penalties }

/-- Embedding of `get_penalties_for_user` from `penalties/utils.py`: returns the
penalties of the user (with freshly lapsed ones flipped to expired in the
returned copies) and the mutated persistent state. -/
def get_penalties_for_user (uid : String) (now : Nat) (st : LedgerState) :
    List Penalty × LedgerState :=
  let mine := st.penalties.filter fun p => p.user_id == uid
  (mine.map fun p => if lapsed now p then { p with status := "expired" } else p,
   (mine.filter (lapsed now)).foldl expireOne st)

/-- The field updates `resolve_penalty` writes into the record it finds:
status resolved, the notes, the resolver and the resolution timestamp. -/
def resolvedRecord (p : Penalty) (mod : String) (notes : Option String)
    (now : Nat) : Penalty :=
  { p with status := "resolved", notes := notes,
           resolved_by := some mod, resolved_at := some now }

/-- The search-and-update loop of `resolve_penalty` in
`penalties/utils.py`: rewrite the first record whose id matches and report
the user id of that record (`break` after the first hit). -/
def resolveInLedger (pid mod : String) (notes : Option String) (now : Nat) :
    List Penalty → List Penalty × Option String
  | [] => ([], none)
  | p :: rest =>
    if p.penalty_id == pid then
      (resolvedRecord p mod notes now :: rest, some p.user_id)
    else
      (p :: (resolveInLedger pid mod notes now rest).1,
       (resolveInLedger pid mod notes now rest).2)

/-- Embedding of `resolve_penalty` from `penalties/utils.py`.  The Python guard
`if target_user_id:` is truthy only for a present, non-empty user id. -/
def resolve_penalty (pid moderator_id : String) (notes : Option String)
    (now : Nat) (st : LedgerState) : LedgerState :=
  match resolveInLedger pid moderator_id notes now st.penalties with
  | (ps, some uid) =>
    if uid == "" then { st with penalties := ps }
    else unlink_penalty_from_user uid pid { st with penalties := ps }
  | (ps, none) => { st with penalties := ps }

/-- The lookup loop of `delete_penalty` in `penalties/utils.py`: the user id
of the first record whose penalty id matches. -/
def ledgerUserOf (pid : String) : List Penalty → Option String
  | [] => none
  | p :: rest => if p.penalty_id == pid then some p.user_id else ledgerUserOf pid rest

/-- Embedding of `delete_penalty` from `penalties/utils.py`: drop every record with the
id, then unlink from the user when one was found (same truthiness guard). -/
def delete_penalty (pid : String) (st : LedgerState) : LedgerState :=
  let target := ledgerUserOf pid st.penalties
  let st1 : LedgerState :=
    { st with penalties := st.penalties.filter fun p => p.penalty_id != pid }
  match target with
  | some uid => if uid == "" then st1 else unlink_penalty_from_user uid pid st1
  | none => st1

/-- The typed failure of the penalties routes. -/
inductive PenaltyError where
  | penaltyNotFound
  deriving DecidableEq, Repr

deriving instance DecidableEq for Except

namespace Router

/-- The `DELETE /penalties` route handler from `penalties/router.py` (after
its role check): it filters the ledger in place, raises 404 when nothing was
removed, and never touches the user record. -/
def delete_penalty (pid : String) (st : LedgerState) :
    Except PenaltyError LedgerState :=
  let updated := st.penalties.filter fun p => p.penalty_id != pid
  if updated.length == st.penalties.length then .error .penaltyNotFound
  else .ok { st with penalties := updated }

/-- The `PATCH /penalties` route handler from `penalties/router.py` (after
its role check): it delegates to `utils.resolve_penalty` and reports success
unconditionally. -/
def resolve_penalty (pid moderator_id : String) (notes : Option String)
    (now : Nat) (st : LedgerState) : Except PenaltyError LedgerState :=
  .ok (MovieReviews.resolve_penalty pid moderator_id notes now st)

end Router

/-- The message built by `check_active_penalty` for a blocking penalty. -/
def blockMessage (now : Nat) (p : Penalty) : String :=
  "Action blocked due to active " ++ p.type ++ " (" ++ p.reason ++ ") — " ++
    ((p.time_remaining now).getD "Unknown duration") ++ "."

/-- The scan loop of `check_active_penalty`: the first penalty in list order
that is active and whose type is blocked. -/
def firstBlocked (blocked : List String) : List Penalty → Option Penalty
  | [] => none
  | p :: rest =>
    if p.status == "active" && blocked.contains p.type then some p
    else firstBlocked blocked rest

/-- Embedding of `check_active_penalty` from `penalties/utils.py`: runs the lazy-expiry
read, then returns the message of the first active blocked penalty. -/
def check_active_penalty (uid : String) (blocked : List String) (now : Nat)
    (st : LedgerState) : Option String × LedgerState :=
  let r := get_penalties_for_user uid now st
  ((firstBlocked blocked r.1).map (blockMessage now), r.2)

/-! ### Token authority

The module `backend/authentication/security.py` is not part of the source
tree; only its call sites are.  Its operations are therefore modelled from
the specification, section 4.1. -/

/-- The claims carried by a session token. -/
structure Claims where
  user_id : String
  role : String
  status : String
  issued_at : Nat
  expires_at : Nat
  deriving DecidableEq, Repr

/-- A bearer token: either a correctly signed value carrying claims, or a
string that fails the structural/signature check. -/
inductive Token where
  | signed (c : Claims)
  | malformed (s : String)
  deriving DecidableEq, Repr

/-- The typed failures of session-token verification. -/
inductive AuthError where
  | authInvalid
  | authExpired
  | authRevoked
  deriving DecidableEq, Repr

/-- Modelled from the spec: `revoke(token)` of section 4.1 (the module
`backend/authentication/security.py` is missing from the source tree) —
adds the canonical token value to the revocation store, idempotently. -/
def revoke_token (t : Token) (revoked : List Token) : List Token :=
  if revoked.contains t then revoked else revoked ++ [t]

/-- Modelled from the spec: `verify(token)` of section 4.1 (the module
`backend/authentication/security.py` is missing from the source tree) —
the checks run in order: structural validity, then revocation, then expiry. -/
def verify_token (t : Token) (revoked : List Token) (now : Nat) :
    Except AuthError Claims :=
  match t with
  | .malformed _ => .error .authInvalid
  | .signed c =>
    if revoked.contains (Token.signed c) then .error .authRevoked
    else if c.expires_at < now then .error .authExpired
    else .ok c

/-- The typed failures of reset-token verification. -/
inductive ResetError where
  | resetTokenInvalid
  | resetTokenExpired
  | resetTokenConsumed
  deriving DecidableEq, Repr

/-- A single-use password-reset token record. -/
structure ResetToken where
  token : String
  user_id : String
  expires_at : Nat
  consumed : Bool
  deriving DecidableEq, Repr

/-- Modelled from the spec: `createResetToken(subjectId)` of section 4.1
(the module `backend/authentication/security.py` is missing from the source
tree) — a fresh token bound to one subject with a ten-minute TTL. -/
def create_reset_token (uid tok : String) (now : Nat)
    (store : List ResetToken) : List ResetToken :=
  store ++ [{ token := tok, user_id := uid, expires_at := now + 600, consumed := false }]

/-- Modelled from the spec: `verifyResetToken(token)` of section 4.1 (the
module `backend/authentication/security.py` is missing from the source
tree) — unknown tokens are invalid, consumed tokens fail `Consumed`, stale
tokens fail `Expired`, and a successful verification marks the token
consumed in the same indivisible step, returning the result together with
the updated store. -/
def verify_reset_token (tok : String) (now : Nat) (store : List ResetToken) :
    Except ResetError String × List ResetToken :=
  match store.find? (fun r => r.token == tok) with
  | none => (.error .resetTokenInvalid, store)
  | some r =>
    if r.consumed then (.error .resetTokenConsumed, store)
    else if r.expires_at < now then (.error .resetTokenExpired, store)
    else (.ok r.user_id,
          store.map fun x => if x.token == tok then { x with consumed := true } else x)

/-! ### Specification-shaped expiry rule (for the refinement claim) -/

/-- The expiry rule exactly as the specification words it, to be compared
with `calculate_expiry` from the source: override first when provided and
positive, then warnings never expire, then the severity table with severe
suspensions at thirty days and a seven-day default. -/
def spec_expiry (p_type severity : String) (overrideDays : Option Int)
    (issuedAt : Nat) : Option Nat :=
  if 0 < (overrideDays.getD 0) then
    some (issuedAt + (overrideDays.getD 0).toNat * secondsPerDay)
  else if p_type == "warning" then none
  else if severity == "minor" then some (issuedAt + 3 * secondsPerDay)
  else if severity == "moderate" then some (issuedAt + 7 * secondsPerDay)
  else if severity == "severe" && p_type == "suspension" then
    some (issuedAt + 30 * secondsPerDay)
  else if severity == "severe" then some (issuedAt + 14 * secondsPerDay)
  else some (issuedAt + 7 * secondsPerDay)

/-! ### Well-formedness of the persistent state -/

/-- Well-formed persistent state: penalty identifiers are unique in the
ledger, user identifiers are unique in the directory, and each user record with its
active-penalty list holds no duplicates.  Every state the application
builds from an empty store satisfies this (identifiers are fresh UUIDs). -/
def WF (st : LedgerState) : Prop :=
  (st.penalties.map Penalty.penalty_id).Nodup ∧
  (st.users.map UserRecord.user_id).Nodup ∧
  ∀ u ∈ st.users, u.penalties.Nodup

instance (st : LedgerState) : Decidable (WF st) := by
  unfold WF; infer_instance

/-! ### Helper lemmas: structure updates -/

@[simp] theorem Penalty.penalty_id_set_status (q : Penalty) (s : String) :
    ({ q with status := s } : Penalty).penalty_id = q.penalty_id := rfl

@[simp] theorem Penalty.user_id_set_status (q : Penalty) (s : String) :
    ({ q with status := s } : Penalty).user_id = q.user_id := rfl

@[simp] theorem Penalty.status_set_status (q : Penalty) (s : String) :
    ({ q with status := s } : Penalty).status = s := rfl

@[simp] theorem Penalty.expires_at_set_status (q : Penalty) (s : String) :
    ({ q with status := s } : Penalty).expires_at = q.expires_at := rfl

@[simp] theorem Penalty.set_status_set_status (q : Penalty) (s t : String) :
    ({ ({ q with status := s } : Penalty) with status := t } : Penalty) =
      { q with status := t } := rfl

@[simp] theorem Penalty.has_expired_set_status (q : Penalty) (s : String)
    (now : Nat) :
    ({ q with status := s } : Penalty).has_expired now = q.has_expired now := rfl

@[simp] theorem UserRecord.user_id_set_penalties (u : UserRecord)
    (l : List String) :
    ({ u with penalties := l } : UserRecord).user_id = u.user_id := rfl

@[simp] theorem UserRecord.penalties_set_penalties (u : UserRecord)
    (l : List String) :
    ({ u with penalties := l } : UserRecord).penalties = l := rfl

/-! ### Helper lemmas: the expiry fold acts independently on the two stores -/

theorem expireOne_penalties (st : LedgerState) (p : Penalty) :
    (expireOne st p).penalties = markExpired p.penalty_id st.penalties := rfl

theorem expireOne_users (st : LedgerState) (p : Penalty) :
    (expireOne st p).users = unlinkFromUsers p.user_id p.penalty_id st.users := rfl

theorem foldl_expireOne_penalties (l : List Penalty) (st : LedgerState) :
    (l.foldl expireOne st).penalties =
      l.foldl (fun ps p => markExpired p.penalty_id ps) st.penalties := by
  induction l generalizing st with
  | nil => rfl
  | cons p l ih => rw [List.foldl_cons, List.foldl_cons, ih, expireOne_penalties]

theorem foldl_expireOne_users (l : List Penalty) (st : LedgerState) :
    (l.foldl expireOne st).users =
      l.foldl (fun us p => unlinkFromUsers p.user_id p.penalty_id us) st.users := by
  induction l generalizing st with
  | nil => rfl
  | cons p l ih => rw [List.foldl_cons, List.foldl_cons, ih, expireOne_users]

theorem foldl_markExpired (l : List Penalty) (ps : List Penalty) :
    l.foldl (fun a p => markExpired p.penalty_id a) ps =
      ps.map fun q =>
        if l.any (fun p => p.penalty_id == q.penalty_id) then
          { q with status := "expired" } else q := by
  induction l generalizing ps with
  | nil => simp
  | cons p l ih =>
    rw [List.foldl_cons, ih]
    unfold markExpired
    rw [List.map_map]
    refine List.map_congr_left ?_
    intro q _
    by_cases h : (p.penalty_id == q.penalty_id) = true
    · have h' : (q.penalty_id == p.penalty_id) = true := by
        rw [beq_iff_eq] at h ⊢; exact h.symm
      simp only [Function.comp_apply, List.any_cons, h, h', Bool.true_or,
        Penalty.penalty_id_set_status, Penalty.set_status_set_status,
        eq_self_iff_true, if_true, ite_self]
    · rw [Bool.not_eq_true] at h
      have h' : (q.penalty_id == p.penalty_id) = false := by
        rw [beq_eq_false_iff_ne] at h ⊢; exact fun e => h e.symm
      simp only [Function.comp_apply, List.any_cons, h, h', Bool.false_or,
        Bool.false_eq_true, if_false]

theorem get_penalties_fst (uid : String) (now : Nat) (st : LedgerState) :
    (get_penalties_for_user uid now st).1 =
      (st.penalties.filter fun p => p.user_id == uid).map
        (fun p => if lapsed now p then { p with status := "expired" } else p) := rfl

theorem get_penalties_snd (uid : String) (now : Nat) (st : LedgerState) :
    (get_penalties_for_user uid now st).2 =
      ((st.penalties.filter fun p => p.user_id == uid).filter (lapsed now)).foldl
        expireOne st := rfl

/-! ### Helper lemmas: unlinking from the user directory -/

/-- The part of `WF` that concerns the user directory. -/
def INVusers (us : List UserRecord) : Prop :=
  (us.map UserRecord.user_id).Nodup ∧ ∀ u ∈ us, u.penalties.Nodup

theorem unlinkFromUsers_map_user_id (uid pid : String) (us : List UserRecord) :
    (unlinkFromUsers uid pid us).map UserRecord.user_id =
      us.map UserRecord.user_id := by
  induction us with
  | nil => rfl
  | cons u rest ih =>
    unfold unlinkFromUsers
    by_cases h : (u.user_id == uid) = true
    · rw [if_pos h]; rfl
    · rw [if_neg h, List.map_cons, List.map_cons, ih]

theorem mem_unlinkFromUsers (uid pid : String) (us : List UserRecord)
    (u : UserRecord) (hu : u ∈ unlinkFromUsers uid pid us) :
    ∃ u0 ∈ us, u.user_id = u0.user_id ∧
      (u = u0 ∨ u.penalties = u0.penalties.erase pid) := by
  induction us with
  | nil => simp [unlinkFromUsers] at hu
  | cons v rest ih =>
    unfold unlinkFromUsers at hu
    by_cases h : (v.user_id == uid) = true
    · rw [if_pos h] at hu
      rcases List.mem_cons.mp hu with h1 | h1
      · exact ⟨v, List.mem_cons_self v rest, by rw [h1], Or.inr (by rw [h1])⟩
      · exact ⟨u, List.mem_cons_of_mem v h1, rfl, Or.inl rfl⟩
    · rw [if_neg h] at hu
      rcases List.mem_cons.mp hu with h1 | h1
      · exact ⟨v, List.mem_cons_self v rest, by rw [h1], Or.inl h1⟩
      · obtain ⟨u0, hu0, h2, h3⟩ := ih h1
        exact ⟨u0, List.mem_cons_of_mem v hu0, h2, h3⟩

theorem unlinkFromUsers_not_mem (uid pid : String) (us : List UserRecord)
    (hid : (us.map UserRecord.user_id).Nodup)
    (hnd : ∀ u ∈ us, u.penalties.Nodup) :
    ∀ u ∈ unlinkFromUsers uid pid us, u.user_id = uid → pid ∉ u.penalties := by
  induction us with
  | nil => intro u hu; simp [unlinkFromUsers] at hu
  | cons v rest ih =>
    intro u hu huid
    have hid' : v.user_id ∉ rest.map UserRecord.user_id ∧
        (rest.map UserRecord.user_id).Nodup := by
      rw [List.map_cons, List.nodup_cons] at hid; exact hid
    unfold unlinkFromUsers at hu
    by_cases h : (v.user_id == uid) = true
    · rw [if_pos h] at hu
      rcases List.mem_cons.mp hu with h1 | h1
      · rw [h1]
        exact (hnd v (List.mem_cons_self v rest)).not_mem_erase
      · exfalso
        have hv : v.user_id = uid := by simpa using h
        have hmem : uid ∈ rest.map UserRecord.user_id := by
          rw [← huid]; exact List.mem_map_of_mem UserRecord.user_id h1
        exact hid'.1 (by rw [hv]; exact hmem)
    · rw [if_neg h] at hu
      rcases List.mem_cons.mp hu with h1 | h1
      · exfalso
        have hv : ¬ v.user_id = uid := by simpa using h
        exact hv (h1 ▸ huid)
      · exact ih hid'.2 (fun w hw => hnd w (List.mem_cons_of_mem v hw)) u h1 huid

theorem unlink_preserves_not_mem (uid pid uid2 pid0 : String)
    (us : List UserRecord)
    (h : ∀ u ∈ us, u.user_id = uid2 → pid0 ∉ u.penalties) :
    ∀ u ∈ unlinkFromUsers uid pid us, u.user_id = uid2 → pid0 ∉ u.penalties := by
  intro u hu h2 hmem
  obtain ⟨u0, hu0, he, hp⟩ := mem_unlinkFromUsers uid pid us u hu
  rcases hp with rfl | hp
  · exact h u hu0 h2 hmem
  · exact h u0 hu0 (he ▸ h2) (List.mem_of_mem_erase (hp ▸ hmem))

theorem INVusers_unlinkFromUsers (uid pid : String) (us : List UserRecord)
    (h : INVusers us) : INVusers (unlinkFromUsers uid pid us) := by
  constructor
  · rw [unlinkFromUsers_map_user_id]; exact h.1
  · intro u hu
    obtain ⟨u0, hu0, _, hp⟩ := mem_unlinkFromUsers uid pid us u hu
    rcases hp with rfl | hp
    · exact h.2 u hu0
    · rw [hp]; exact (h.2 u0 hu0).erase pid

theorem foldl_unlink_preserves_not_mem (l : List Penalty) (uid2 pid0 : String)
    (us : List UserRecord)
    (h : ∀ u ∈ us, u.user_id = uid2 → pid0 ∉ u.penalties) :
    ∀ u ∈ l.foldl (fun a p => unlinkFromUsers p.user_id p.penalty_id a) us,
      u.user_id = uid2 → pid0 ∉ u.penalties := by
  induction l generalizing us with
  | nil => exact h
  | cons p l ih =>
    exact ih _ (unlink_preserves_not_mem p.user_id p.penalty_id uid2 pid0 us h)

theorem INVusers_foldl_unlink (l : List Penalty) (us : List UserRecord)
    (h : INVusers us) :
    INVusers (l.foldl (fun a p => unlinkFromUsers p.user_id p.penalty_id a) us) := by
  induction l generalizing us with
  | nil => exact h
  | cons p l ih => exact ih _ (INVusers_unlinkFromUsers p.user_id p.penalty_id us h)

theorem foldl_unlink_not_mem (p0 : Penalty) :
    ∀ (l : List Penalty) (us : List UserRecord), INVusers us → p0 ∈ l →
      ∀ u ∈ l.foldl (fun a p => unlinkFromUsers p.user_id p.penalty_id a) us,
        u.user_id = p0.user_id → p0.penalty_id ∉ u.penalties := by
  intro l
  induction l with
  | nil => intro us _ hp0; cases hp0
  | cons p l ih =>
    intro us h hp0
    rcases List.mem_cons.mp hp0 with h1 | h1
    · subst h1
      exact foldl_unlink_preserves_not_mem l p0.user_id p0.penalty_id _
        (unlinkFromUsers_not_mem p0.user_id p0.penalty_id us h.1 h.2)
    · exact ih (unlinkFromUsers p.user_id p.penalty_id us)
        (INVusers_unlinkFromUsers p.user_id p.penalty_id us h) h1

theorem lapsed_expired_false (now : Nat) (q : Penalty) :
    lapsed now ({ q with status := "expired" } : Penalty) = false := by
  unfold lapsed
  rw [Penalty.status_set_status]
  rfl

theorem mem_lapsed_filter (st : LedgerState) (uid : String) (now : Nat)
    (p : Penalty) (hp : p ∈ st.penalties) (h1 : p.user_id = uid)
    (h2 : p.status = "active") (h3 : p.has_expired now = true) :
    p ∈ (st.penalties.filter fun r => r.user_id == uid).filter (lapsed now) := by
  refine List.mem_filter.mpr ⟨List.mem_filter.mpr ⟨hp, beq_iff_eq.mpr h1⟩, ?_⟩
  unfold lapsed
  rw [h3, beq_iff_eq.mpr h2]
  rfl

/-- Claim C3: `listForSubject` transitions each returned penalty that is
active with a passed expiry to status expired and unlinks its identifier
from the subject before returning, and the operation is idempotent: a
second call on the resulting state performs no further mutation. -/
theorem listForSubject_expiry_idempotent (st : LedgerState) (uid : String)
    (now : Nat) (hWF : WF st) :
    (∀ p ∈ st.penalties, p.user_id = uid → p.status = "active" →
        p.has_expired now = true →
        ((∀ q ∈ (get_penalties_for_user uid now st).2.penalties,
            q.penalty_id = p.penalty_id → q.status = "expired") ∧
         (∀ u ∈ (get_penalties_for_user uid now st).2.users,
            u.user_id = uid → p.penalty_id ∉ u.penalties))) ∧
    (get_penalties_for_user uid now (get_penalties_for_user uid now st).2).2 =
      (get_penalties_for_user uid now st).2 := by
  constructor
  · intro p hp h1 h2 h3
    have hpL := mem_lapsed_filter st uid now p hp h1 h2 h3
    constructor
    · intro q hq hqe
      rw [get_penalties_snd, foldl_expireOne_penalties, foldl_markExpired] at hq
      obtain ⟨q0, hq0, rfl⟩ := List.mem_map.mp hq
      by_cases hc : (((st.penalties.filter fun r => r.user_id == uid).filter
          (lapsed now)).any fun r => r.penalty_id == q0.penalty_id) = true
      · rw [if_pos hc]
      · exfalso
        rw [if_neg hc] at hqe
        exact hc (List.any_eq_true.mpr ⟨p, hpL, beq_iff_eq.mpr hqe.symm⟩)
    · intro u hu huid
      rw [get_penalties_snd, foldl_expireOne_users] at hu
      exact foldl_unlink_not_mem p _ st.users ⟨hWF.2.1, hWF.2.2⟩ hpL u hu
        (huid.trans h1.symm)
  · have hL' : (((get_penalties_for_user uid now st).2.penalties.filter
        fun r => r.user_id == uid).filter (lapsed now)) = [] := by
      rw [List.filter_eq_nil_iff]
      intro a ha
      have ha1 := (List.mem_filter.mp ha).1
      have ha2 := (List.mem_filter.mp ha).2
      rw [get_penalties_snd, foldl_expireOne_penalties, foldl_markExpired] at ha1
      obtain ⟨q0, hq0, rfl⟩ := List.mem_map.mp ha1
      by_cases hc : (((st.penalties.filter fun r => r.user_id == uid).filter
          (lapsed now)).any fun r => r.penalty_id == q0.penalty_id) = true
      · rw [if_pos hc, lapsed_expired_false]
        exact Bool.false_ne_true
      · rw [if_neg hc]
        rw [if_neg hc] at ha2
        intro hlap
        have hq0L : q0 ∈ (st.penalties.filter fun r => r.user_id == uid).filter
            (lapsed now) :=
          List.mem_filter.mpr ⟨List.mem_filter.mpr ⟨hq0, ha2⟩, hlap⟩
        exact hc (List.any_eq_true.mpr ⟨q0, hq0L, beq_iff_eq.mpr rfl⟩)
    rw [get_penalties_snd uid now (get_penalties_for_user uid now st).2, hL']
    rfl

/-- Sample penalty used to instantiate the universally quantified theorems:
an active review ban whose stored expiry is second 100. -/
def wPenalty : Penalty :=
  { user_id := "u1", type := "review_ban", severity := "minor",
    reason := "spam", penalty_id := "p1", issued_by := "m1", issued_at := 0,
    expires_at := some (.parsed 100), status := "active" }

/-- Sample well-formed ledger state: one user holding the one penalty. -/
def wState : LedgerState :=
  { penalties := [wPenalty],
    users := [{ user_id := "u1", penalties := ["p1"] }] }

/-- Witness for claim C3 at the concrete state `wState`, read at second 200
(after the stored expiry), discharging the well-formedness hypothesis. -/
theorem listForSubject_expiry_idempotent_witness :
    WF wState ∧
    ((∀ p ∈ wState.penalties, p.user_id = "u1" → p.status = "active" →
        p.has_expired 200 = true →
        ((∀ q ∈ (get_penalties_for_user "u1" 200 wState).2.penalties,
            q.penalty_id = p.penalty_id → q.status = "expired") ∧
         (∀ u ∈ (get_penalties_for_user "u1" 200 wState).2.users,
            u.user_id = "u1" → p.penalty_id ∉ u.penalties))) ∧
     (get_penalties_for_user "u1" 200
          (get_penalties_for_user "u1" 200 wState).2).2 =
        (get_penalties_for_user "u1" 200 wState).2) :=
  ⟨by decide, listForSubject_expiry_idempotent wState "u1" 200 (by decide)⟩

/-! ### Claim C2: the expiry computation matches the ordered rule -/

theorem default_matches_tail (t s : String) (now : Nat) :
    calculate_expiry_default t s now =
      (if t == "warning" then none
       else if s == "minor" then some (now + 3 * secondsPerDay)
       else if s == "moderate" then some (now + 7 * secondsPerDay)
       else if s == "severe" && t == "suspension" then
         some (now + 30 * secondsPerDay)
       else if s == "severe" then some (now + 14 * secondsPerDay)
       else some (now + 7 * secondsPerDay)) := by
  unfold calculate_expiry_default
  by_cases hw : (t == "warning") = true
  · rw [if_pos hw, if_pos hw]
  · rw [if_neg hw, if_neg hw]
    by_cases h1 : (s == "minor") = true
    · rw [if_pos h1, if_pos h1]
    · rw [if_neg h1, if_neg h1]
      by_cases h2 : (s == "moderate") = true
      · rw [if_pos h2, if_pos h2]
      · rw [if_neg h2, if_neg h2]
        by_cases h3 : (s == "severe") = true
        · by_cases h4 : (t == "suspension") = true
          · rw [if_pos h3, if_pos h4,
              if_pos (show (s == "severe" && t == "suspension") = true by
                rw [h3, h4]; rfl)]
          · rw [Bool.not_eq_true] at h4
            rw [if_pos h3, if_neg (show ¬ (t == "suspension") = true by
                rw [h4]; exact Bool.false_ne_true),
              if_neg (show ¬ (s == "severe" && t == "suspension") = true by
                rw [h3, h4]; decide),
              if_pos h3]
        · rw [Bool.not_eq_true] at h3
          rw [if_neg (show ¬ (s == "severe") = true by
              rw [h3]; exact Bool.false_ne_true),
            if_neg (show ¬ (s == "severe" && t == "suspension") = true by
              rw [h3]; simp),
            if_neg (show ¬ (s == "severe") = true by
              rw [h3]; exact Bool.false_ne_true)]

theorem calculate_expiry_none (t s : String) (now : Nat) :
    calculate_expiry t s none now = calculate_expiry_default t s now := rfl

theorem calculate_expiry_some (t s : String) (k : Int) (now : Nat) :
    calculate_expiry t s (some k) now =
      if 0 < k then some (now + k.toNat * secondsPerDay)
      else calculate_expiry_default t s now := rfl

/-- Claim C2: for every issuance, the computed expiry follows the ordered
rule — a positive overrideDays wins over type and severity, warnings
otherwise get no expiry, and otherwise the severity table applies with
severe suspensions at thirty days and a seven-day default for any other
severity value.  Stated as equality with the rule exactly as the
specification words it (`spec_expiry`). -/
theorem calculate_expiry_matches_spec (t s : String) (d : Option Int)
    (now : Nat) : calculate_expiry t s d now = spec_expiry t s d now := by
  cases d with
  | none =>
    show calculate_expiry_default t s now = spec_expiry t s none now
    unfold spec_expiry
    rw [Option.getD_none, if_neg (lt_irrefl (0 : Int)), default_matches_tail]
  | some k =>
    unfold spec_expiry
    rw [calculate_expiry_some, Option.getD_some]
    by_cases hk : (0 : Int) < k
    · rw [if_pos hk, if_pos hk]
    · rw [if_neg hk, if_neg hk, default_matches_tail]

/-- Claim C6 counterexample: a warning issued with a positive override
receives an expiry, so a warning-type issuance does not always have
expiry none. -/
theorem warning_override_has_expiry :
    calculate_expiry "warning" "severe" (some 5) 0 ≠ none := by decide

/-- Claim C6 (amended): a warning issued with no positive override gets no
expiry; a penalty without a stored expiry never tests as expired; and
listForSubject returns such a penalty unchanged, never flipping it to
expired, regardless of elapsed time. -/
theorem warning_never_expires :
    (∀ (s : String) (d : Option Int) (now : Nat),
        (d = none ∨ ∀ k, d = some k → k ≤ 0) →
        calculate_expiry "warning" s d now = none) ∧
    (∀ (p : Penalty) (now : Nat), p.expires_at = none →
        p.has_expired now = false) ∧
    (∀ (st : LedgerState) (uid : String) (now : Nat) (p : Penalty),
        p ∈ st.penalties → p.user_id = uid → p.expires_at = none →
        p ∈ (get_penalties_for_user uid now st).1) := by
  have hne : ∀ (p : Penalty) (now : Nat), p.expires_at = none →
      p.has_expired now = false := by
    intro p now h
    unfold Penalty.has_expired
    rw [h]
  refine ⟨?_, hne, ?_⟩
  · intro s d now hd
    cases d with
    | none =>
      show calculate_expiry_default "warning" s now = none
      unfold calculate_expiry_default
      rw [if_pos (show (("warning" : String) == "warning") = true from rfl)]
    | some k =>
      have hk : ¬ (0 : Int) < k := by
        rcases hd with h | h
        · cases h
        · exact not_lt.mpr (h k rfl)
      rw [calculate_expiry_some, if_neg hk]
      unfold calculate_expiry_default
      rw [if_pos (show (("warning" : String) == "warning") = true from rfl)]
  · intro st uid now p hp h1 h2
    rw [get_penalties_fst]
    refine List.mem_map.mpr ⟨p, List.mem_filter.mpr ⟨hp, beq_iff_eq.mpr h1⟩, ?_⟩
    have hl : lapsed now p = false := by
      unfold lapsed
      rw [hne p now h2, Bool.and_false]
    rw [if_neg (by rw [hl]; exact Bool.false_ne_true)]

/-- Witness for the amended claim C6: a warning with no override computed
at second 0 has no expiry. -/
theorem warning_never_expires_witness :
    calculate_expiry "warning" "severe" none 0 = none :=
  warning_never_expires.1 "severe" none 0 (Or.inl rfl)

/-- Claim C10: the expiry check is total — a penalty whose stored expiry is
absent or unparseable tests as not expired rather than raising — and such a
penalty is never transitioned to expired by listForSubject: it stays in the
store unchanged and is returned unchanged. -/
theorem has_expired_total_unparseable (st : LedgerState) (uid : String)
    (now : Nat) (p : Penalty) (hp : p ∈ st.penalties)
    (hids : (st.penalties.map Penalty.penalty_id).Nodup)
    (hexp : p.expires_at = none ∨
      ∃ s, p.expires_at = some (StoredTime.malformed s)) :
    p.has_expired now = false ∧
    p ∈ (get_penalties_for_user uid now st).2.penalties ∧
    (p.user_id = uid → p ∈ (get_penalties_for_user uid now st).1) := by
  have hne : p.has_expired now = false := by
    unfold Penalty.has_expired
    rcases hexp with h | ⟨s, h⟩
    · rw [h]
    · rw [h]
      rfl
  have hl : lapsed now p = false := by
    unfold lapsed
    rw [hne, Bool.and_false]
  refine ⟨hne, ?_, ?_⟩
  · rw [get_penalties_snd, foldl_expireOne_penalties, foldl_markExpired]
    refine List.mem_map.mpr ⟨p, hp, ?_⟩
    rw [if_neg ?_]
    intro hc
    obtain ⟨r, hr, hrpid⟩ := List.any_eq_true.mp hc
    have hr1 := (List.mem_filter.mp (List.mem_filter.mp hr).1).1
    have hr2 := (List.mem_filter.mp hr).2
    have : r = p :=
      List.inj_on_of_nodup_map hids hr1 hp (beq_iff_eq.mp hrpid)
    rw [this, hl] at hr2
    exact Bool.false_ne_true hr2
  · intro h1
    rw [get_penalties_fst]
    refine List.mem_map.mpr ⟨p, List.mem_filter.mpr ⟨hp, beq_iff_eq.mpr h1⟩, ?_⟩
    rw [if_neg (by rw [hl]; exact Bool.false_ne_true)]

/-- Sample penalty whose stored expiry string does not parse. -/
def wBadPenalty : Penalty :=
  { user_id := "u2", type := "suspension", severity := "severe",
    reason := "abuse", penalty_id := "p2", issued_by := "m1", issued_at := 0,
    expires_at := some (.malformed "not-a-date"), status := "active" }

/-- Sample state holding the unparseable-expiry penalty. -/
def wBadState : LedgerState :=
  { penalties := [wBadPenalty],
    users := [{ user_id := "u2", penalties := ["p2"] }] }

/-- Witness for claim C10 at the concrete unparseable-expiry state. -/
theorem has_expired_total_unparseable_witness :
    wBadPenalty.has_expired 999999999 = false ∧
    wBadPenalty ∈ (get_penalties_for_user "u2" 999999999 wBadState).2.penalties ∧
    (wBadPenalty.user_id = "u2" →
      wBadPenalty ∈ (get_penalties_for_user "u2" 999999999 wBadState).1) :=
  has_expired_total_unparseable wBadState "u2" 999999999 wBadPenalty
    (by decide) (by decide) (Or.inr ⟨"not-a-date", rfl⟩)

/-! ### Claim C9: the restriction gate -/

theorem firstBlocked_eq_find (blocked : List String) (l : List Penalty) :
    firstBlocked blocked l =
      l.find? fun p => p.status == "active" && blocked.contains p.type := by
  induction l with
  | nil => rfl
  | cons p l ih =>
    unfold firstBlocked
    rw [List.find?_cons]
    by_cases h : (p.status == "active" && blocked.contains p.type) = true
    · rw [if_pos h, h]
    · rw [Bool.not_eq_true] at h
      rw [if_neg (by rw [h]; exact Bool.false_ne_true), h, ih]

theorem blockMessage_ne_empty (now : Nat) (p : Penalty) :
    blockMessage now p ≠ "" := by
  unfold blockMessage
  intro h
  have hlen := congrArg String.length h
  rw [String.length_append, String.length_append, String.length_append,
    String.length_append, String.length_append, String.length_append] at hlen
  have h1 : (0 : Nat) < ("Action blocked due to active " : String).length := by
    decide
  have h0 : ("" : String).length = 0 := rfl
  rw [h0] at hlen
  omega

theorem contains_iff_mem_str (l : List String) (a : String) :
    l.contains a = true ↔ a ∈ l := List.elem_iff

/-- Claim C9: checkActiveRestriction returns the message of the first
active penalty (in list order) whose type is blocked, evaluated after lazy
expiry has been applied by listForSubject; it returns none exactly when no
active penalty of a blocked type remains — in particular when every
matching-type penalty is resolved or expired — and a returned message is
never empty. -/
theorem checkActiveRestriction_spec (uid : String) (blocked : List String)
    (now : Nat) (st : LedgerState) :
    ((check_active_penalty uid blocked now st).1 =
      ((get_penalties_for_user uid now st).1.find? fun p =>
          p.status == "active" && blocked.contains p.type).map
        (blockMessage now)) ∧
    ((check_active_penalty uid blocked now st).1 = none ↔
      ∀ p ∈ (get_penalties_for_user uid now st).1,
        ¬ (p.status = "active" ∧ p.type ∈ blocked)) ∧
    (∀ m, (check_active_penalty uid blocked now st).1 = some m → m ≠ "") := by
  have h1 : (check_active_penalty uid blocked now st).1 =
      ((get_penalties_for_user uid now st).1.find? fun p =>
          p.status == "active" && blocked.contains p.type).map
        (blockMessage now) := by
    show (firstBlocked blocked (get_penalties_for_user uid now st).1).map
        (blockMessage now) = _
    rw [firstBlocked_eq_find]
  refine ⟨h1, ?_, ?_⟩
  · rw [h1, Option.map_eq_none', List.find?_eq_none]
    constructor
    · intro h p hp hcon
      refine h p hp ?_
      rw [Bool.and_eq_true, beq_iff_eq]
      exact ⟨hcon.1, (contains_iff_mem_str blocked p.type).mpr hcon.2⟩
    · intro h p hp hb
      rw [Bool.and_eq_true, beq_iff_eq] at hb
      exact h p hp ⟨hb.1, (contains_iff_mem_str blocked p.type).mp hb.2⟩
  · intro m hm
    rw [h1] at hm
    obtain ⟨p, _, hmsg⟩ := Option.map_eq_some'.mp hm
    rw [← hmsg]
    exact blockMessage_ne_empty now p

/-- Witness for claim C9 at the concrete state `wState`, blocking type
review_ban, read at second 200. -/
theorem checkActiveRestriction_spec_witness :
    ((check_active_penalty "u1" ["review_ban"] 200 wState).1 =
      ((get_penalties_for_user "u1" 200 wState).1.find? fun p =>
          p.status == "active" && ["review_ban"].contains p.type).map
        (blockMessage 200)) ∧
    ((check_active_penalty "u1" ["review_ban"] 200 wState).1 = none ↔
      ∀ p ∈ (get_penalties_for_user "u1" 200 wState).1,
        ¬ (p.status = "active" ∧ p.type ∈ ["review_ban"])) ∧
    (∀ m, (check_active_penalty "u1" ["review_ban"] 200 wState).1 = some m →
      m ≠ "") :=
  checkActiveRestriction_spec "u1" ["review_ban"] 200 wState

/-! ### Claim C4: resolution -/

theorem resolveInLedger_no_match (pid mod : String) (notes : Option String)
    (now : Nat) : ∀ l : List Penalty, (∀ x ∈ l, x.penalty_id ≠ pid) →
      resolveInLedger pid mod notes now l = (l, none) := by
  intro l
  induction l with
  | nil => intro _; rfl
  | cons p rest ih =>
    intro h
    unfold resolveInLedger
    rw [if_neg (show ¬ (p.penalty_id == pid) = true by
      intro hb
      exact h p (List.mem_cons_self p rest) (beq_iff_eq.mp hb))]
    rw [ih (fun x hx => h x (List.mem_cons_of_mem p hx))]

theorem resolveInLedger_found (pid mod : String) (notes : Option String)
    (now : Nat) : ∀ l : List Penalty, (l.map Penalty.penalty_id).Nodup →
      ∀ p ∈ l, p.penalty_id = pid →
      (resolveInLedger pid mod notes now l).2 = some p.user_id ∧
      ∃ q ∈ (resolveInLedger pid mod notes now l).1,
        q.penalty_id = pid ∧ q.status = "resolved" ∧
        q.resolved_by = some mod ∧ q.resolved_at = some now ∧
        q.notes = notes := by
  intro l
  induction l with
  | nil => intro _ p hp; cases hp
  | cons v rest ih =>
    intro hnd p hp hpid
    have hnd' : v.penalty_id ∉ rest.map Penalty.penalty_id ∧
        (rest.map Penalty.penalty_id).Nodup := by
      rw [List.map_cons, List.nodup_cons] at hnd
      exact hnd
    by_cases hv : (v.penalty_id == pid) = true
    · have hres : resolveInLedger pid mod notes now (v :: rest) =
          (resolvedRecord v mod notes now :: rest, some v.user_id) := by
        unfold resolveInLedger
        rw [if_pos hv]
      rcases List.mem_cons.mp hp with rfl | hmem
      · rw [hres]
        exact ⟨rfl, resolvedRecord p mod notes now,
          List.mem_cons_self _ _, hpid, rfl, rfl, rfl, rfl⟩
      · exfalso
        apply hnd'.1
        rw [beq_iff_eq.mp hv, ← hpid]
        exact List.mem_map_of_mem Penalty.penalty_id hmem
    · have hres : resolveInLedger pid mod notes now (v :: rest) =
          (v :: (resolveInLedger pid mod notes now rest).1,
           (resolveInLedger pid mod notes now rest).2) := by
        simp only [resolveInLedger]
        rw [if_neg hv]
      rcases List.mem_cons.mp hp with rfl | hmem
      · exact absurd (beq_iff_eq.mpr hpid) hv
      · obtain ⟨ha, q, hq, hqs⟩ := ih hnd'.2 p hmem hpid
        rw [hres]
        exact ⟨ha, q, List.mem_cons_of_mem v hq, hqs⟩

theorem resolve_penalty_eq_none (pid mod : String) (notes : Option String)
    (now : Nat) (st : LedgerState) (ps : List Penalty)
    (h : resolveInLedger pid mod notes now st.penalties = (ps, none)) :
    resolve_penalty pid mod notes now st = { st with penalties := ps } := by
  unfold resolve_penalty
  rw [h]

theorem resolve_penalty_eq_unlink (pid mod : String) (notes : Option String)
    (now : Nat) (st : LedgerState) (ps : List Penalty) (uid : String)
    (h : resolveInLedger pid mod notes now st.penalties = (ps, some uid))
    (hne : (uid == "") = false) :
    resolve_penalty pid mod notes now st =
      unlink_penalty_from_user uid pid { st with penalties := ps } := by
  unfold resolve_penalty
  rw [h]
  show (if (uid == "") = true then ({ st with penalties := ps } : LedgerState)
      else unlink_penalty_from_user uid pid { st with penalties := ps }) = _
  rw [if_neg (by rw [hne]; exact Bool.false_ne_true)]

/-- Claim C4 (amended): resolving an unknown identifier is a silent no-op
reported as success — it does not fail with PenaltyNotFound; resolving an
existing identifier sets the status to resolved, records the resolver, the
resolution timestamp and the notes, and removes the identifier from the
active set of the subject. -/
theorem resolve_behavior (st : LedgerState) (pid mod : String)
    (notes : Option String) (now : Nat) (hWF : WF st) :
    ((∀ x ∈ st.penalties, x.penalty_id ≠ pid) →
        Router.resolve_penalty pid mod notes now st = Except.ok st) ∧
    (∀ p ∈ st.penalties, p.penalty_id = pid → p.user_id ≠ "" →
        (∃ q ∈ (resolve_penalty pid mod notes now st).penalties,
            q.penalty_id = pid ∧ q.status = "resolved" ∧
            q.resolved_by = some mod ∧ q.resolved_at = some now ∧
            q.notes = notes) ∧
        (∀ u ∈ (resolve_penalty pid mod notes now st).users,
            u.user_id = p.user_id → pid ∉ u.penalties)) := by
  constructor
  · intro h
    show Except.ok (resolve_penalty pid mod notes now st) = Except.ok st
    rw [resolve_penalty_eq_none pid mod notes now st st.penalties
      (resolveInLedger_no_match pid mod notes now st.penalties h)]
  · intro p hp hpid hne
    obtain ⟨h2, q, hq, hq1, hq2, hq3, hq4, hq5⟩ :=
      resolveInLedger_found pid mod notes now st.penalties hWF.1 p hp hpid
    have hsc : resolveInLedger pid mod notes now st.penalties =
        ((resolveInLedger pid mod notes now st.penalties).1,
         some p.user_id) := by
      rw [← h2]
    rw [resolve_penalty_eq_unlink pid mod notes now st _ p.user_id hsc
      (beq_eq_false_iff_ne.mpr hne)]
    constructor
    · exact ⟨q, hq, hq1, hq2, hq3, hq4, hq5⟩
    · exact unlinkFromUsers_not_mem p.user_id pid st.users hWF.2.1 hWF.2.2

/-- Claim C4 counterexample: resolving an identifier absent from the ledger
does not fail with PenaltyNotFound — the route reports success and the
state is unchanged. -/
theorem resolve_unknown_succeeds :
    Router.resolve_penalty "missing" "m1" none 0 wState = Except.ok wState ∧
    Router.resolve_penalty "missing" "m1" none 0 wState ≠
      Except.error PenaltyError.penaltyNotFound := by decide

/-- Witness for the amended claim C4 at the concrete state `wState`. -/
theorem resolve_behavior_witness :
    WF wState ∧
    (((∀ x ∈ wState.penalties, x.penalty_id ≠ "p1") →
        Router.resolve_penalty "p1" "m1" (some "ok") 50 wState =
          Except.ok wState) ∧
     (∀ p ∈ wState.penalties, p.penalty_id = "p1" → p.user_id ≠ "" →
        (∃ q ∈ (resolve_penalty "p1" "m1" (some "ok") 50 wState).penalties,
            q.penalty_id = "p1" ∧ q.status = "resolved" ∧
            q.resolved_by = some "m1" ∧ q.resolved_at = some 50 ∧
            q.notes = some "ok") ∧
        (∀ u ∈ (resolve_penalty "p1" "m1" (some "ok") 50 wState).users,
            u.user_id = p.user_id → "p1" ∉ u.penalties))) :=
  ⟨by decide, resolve_behavior wState "p1" "m1" (some "ok") 50 (by decide)⟩

/-! ### Claims C1 and C5: the delete route does not unlink -/

/-- Claim C1: evaluation at a reachable state.  Issuing the active penalty
p1 against the registered user u1 yields exactly `wState` (so `wState` is
reachable), and the delete route applied to p1 removes the ledger record
while leaving p1 inside the active-penalty set of u1 — the transition out
of active does not remove the identifier in the same logical step, so the
linkage invariant is broken by the delete endpoint. -/
theorem delete_route_breaks_link_invariant :
    add_penalty wPenalty
        { penalties := [], users := [{ user_id := "u1", penalties := [] }] } =
      wState ∧
    Router.delete_penalty "p1" wState =
      Except.ok
        { penalties := [],
          users := [{ user_id := "u1", penalties := ["p1"] }] } := by
  decide

/-- Claim C5: on a missing identifier the delete route fails
PenaltyNotFound, and on an existing identifier it removes the record — but
it leaves the identifier inside the active set of the subject, unlike the
tested helper `delete_penalty` of the utils module, which removes the
record and unlinks the identifier. -/
theorem delete_route_no_unlink :
    Router.delete_penalty "missing" wState =
      Except.error PenaltyError.penaltyNotFound ∧
    Router.delete_penalty "p1" wState =
      Except.ok
        { penalties := [],
          users := [{ user_id := "u1", penalties := ["p1"] }] } ∧
    delete_penalty "p1" wState =
      { penalties := [], users := [{ user_id := "u1", penalties := [] }] } := by
  decide

/-! ### Claim C7: revocation is checked before expiry -/

/-- Claim C7: a structurally valid token that is present in the revocation
store fails AuthRevoked, even when its embedded expiry has not passed —
the structural check runs first, then revocation, then expiry. -/
theorem verify_token_signed (c : Claims) (revoked : List Token) (now : Nat) :
    verify_token (Token.signed c) revoked now =
      (if revoked.contains (Token.signed c) then
        Except.error AuthError.authRevoked
      else if c.expires_at < now then Except.error AuthError.authExpired
      else Except.ok c) := rfl

theorem verify_revoked_before_expiry (c : Claims) (revoked : List Token)
    (now : Nat) (hrev : Token.signed c ∈ revoked)
    (_hfresh : now ≤ c.expires_at) :
    verify_token (Token.signed c) revoked now =
      Except.error AuthError.authRevoked := by
  rw [verify_token_signed, if_pos (List.elem_eq_true_of_mem hrev)]

/-- Sample claims for the token-authority witnesses. -/
def wClaims : Claims :=
  { user_id := "u1", role := "member", status := "active",
    issued_at := 0, expires_at := 1000 }

/-- Witness for claim C7: the signed token is revoked and still fresh at
second 500, and verification reports AuthRevoked. -/
theorem verify_revoked_before_expiry_witness :
    Token.signed wClaims ∈ revoke_token (Token.signed wClaims) [] ∧
    500 ≤ wClaims.expires_at ∧
    verify_token (Token.signed wClaims)
        (revoke_token (Token.signed wClaims) []) 500 =
      Except.error AuthError.authRevoked :=
  ⟨by decide, by decide,
   verify_revoked_before_expiry wClaims _ 500 (by decide) (by decide)⟩

/-! ### Claim C8: reset tokens are single use -/

@[simp] theorem ResetToken.token_set_consumed (r : ResetToken) (b : Bool) :
    ({ r with consumed := b } : ResetToken).token = r.token := rfl

@[simp] theorem ResetToken.consumed_set_consumed (r : ResetToken) (b : Bool) :
    ({ r with consumed := b } : ResetToken).consumed = b := rfl

@[simp] theorem ResetToken.user_id_set_consumed (r : ResetToken) (b : Bool) :
    ({ r with consumed := b } : ResetToken).user_id = r.user_id := rfl

theorem find?_mark_token (tok : String) (l : List ResetToken) :
    (l.map fun x =>
        if x.token == tok then { x with consumed := true } else x).find?
      (fun r => r.token == tok) =
    (l.find? fun r => r.token == tok).map
      (fun r => { r with consumed := true }) := by
  induction l with
  | nil => rfl
  | cons x l ih =>
    by_cases h : (x.token == tok) = true
    · rw [List.map_cons, if_pos h, List.find?_cons, List.find?_cons]
      simp only [ResetToken.token_set_consumed]
      rw [h]
      rfl
    · rw [Bool.not_eq_true] at h
      rw [List.map_cons, if_neg (by rw [h]; exact Bool.false_ne_true),
        List.find?_cons, List.find?_cons, h, ih]

/-- Claim C8: a successful verifyResetToken marks the token consumed within
the same operation, and every subsequent verification of the same token
fails ResetTokenConsumed — at any later time, even before the TTL elapses —
while leaving the store unchanged (so all further attempts fail alike). -/
theorem verify_reset_token_none (tok : String) (now : Nat)
    (store : List ResetToken)
    (hfind : store.find? (fun r => r.token == tok) = none) :
    verify_reset_token tok now store =
      (Except.error ResetError.resetTokenInvalid, store) := by
  unfold verify_reset_token
  rw [hfind]

theorem verify_reset_token_found (tok : String) (now : Nat)
    (store : List ResetToken) (r : ResetToken)
    (hfind : store.find? (fun r => r.token == tok) = some r) :
    verify_reset_token tok now store =
      (if r.consumed then (Except.error ResetError.resetTokenConsumed, store)
      else if r.expires_at < now then
        (Except.error ResetError.resetTokenExpired, store)
      else (Except.ok r.user_id,
        store.map fun x =>
          if x.token == tok then { x with consumed := true } else x)) := by
  unfold verify_reset_token
  rw [hfind]

theorem reset_token_single_use (tok : String) (now : Nat)
    (store : List ResetToken) (uid : String) (store' : List ResetToken)
    (h : verify_reset_token tok now store = (Except.ok uid, store')) :
    ∀ now2 : Nat,
      verify_reset_token tok now2 store' =
        (Except.error ResetError.resetTokenConsumed, store') := by
  intro now2
  rcases hfind : store.find? (fun r => r.token == tok) with _ | r
  · rw [verify_reset_token_none tok now store hfind] at h
    simp at h
  · rw [verify_reset_token_found tok now store r hfind] at h
    by_cases hcons : r.consumed = true
    · rw [if_pos hcons] at h
      simp at h
    · rw [if_neg hcons] at h
      by_cases hexp : r.expires_at < now
      · rw [if_pos hexp] at h
        simp at h
      · rw [if_neg hexp] at h
        have hstore : store' =
            store.map fun x =>
              if x.token == tok then { x with consumed := true } else x :=
          (congrArg Prod.snd h).symm
        have hfind2 : (store.map fun x =>
            if x.token == tok then { x with consumed := true }
            else x).find? (fun r => r.token == tok) =
            some ({ r with consumed := true } : ResetToken) := by
          rw [find?_mark_token, hfind]
          rfl
        rw [hstore, verify_reset_token_found tok now2 _ _ hfind2,
          if_pos (show ({ r with consumed := true } : ResetToken).consumed =
            true from rfl)]

/-- Sample reset-token store for the claim C8 witness: one fresh token. -/
def wResetStore : List ResetToken :=
  [{ token := "t1", user_id := "u1", expires_at := 600, consumed := false }]

/-- Witness for claim C8: the first verification at second 0 succeeds and
consumes the token; the second verification at second 1 — far before the
TTL at second 600 — fails ResetTokenConsumed. -/
theorem reset_token_single_use_witness :
    verify_reset_token "t1" 0 wResetStore =
      (Except.ok "u1",
       [{ token := "t1", user_id := "u1", expires_at := 600,
          consumed := true }]) ∧
    verify_reset_token "t1" 1
        [{ token := "t1", user_id := "u1", expires_at := 600,
           consumed := true }] =
      (Except.error ResetError.resetTokenConsumed,
       [{ token := "t1", user_id := "u1", expires_at := 600,
          consumed := true }]) :=
  ⟨by decide,
   reset_token_single_use "t1" 0 wResetStore "u1" _ (by decide) 1⟩

end MovieReviews
